import Mathlib

/-!
Verification of the transcript composition and rendering core of the
whatsapp-simulator repository.  The definitions below are a shallow
embedding of the TypeScript source: `src/types.ts` (data model),
`src/context/ChatContext.tsx` and `src/App.tsx` (state-store commands),
and `src/components/ChatPreview.tsx` (grouping engine, reply resolver,
time formatting, message rendering).  JavaScript `Date` values are
modelled by an explicit calendar/time record, optional object fields by
`Option`, and string truthiness checks (`s ||`, `s ?`) by explicit
emptiness tests.
-/

namespace WhatsApp

/-- Message type tag, from `src/types.ts` (`'text' | 'audio' | 'image'`). -/
inductive MType where
  | text
  | audio
  | image
deriving DecidableEq

/-- Model of a JavaScript `Date`: calendar fields plus time of day.
`toDateString` granularity is the (year, month, day) triple; the
locale time rendering uses `hour`/`minute`. -/
structure DateTime where
  year : Nat
  month : Nat
  day : Nat
  hour : Nat
  minute : Nat
  second : Nat
  millis : Nat
deriving DecidableEq

/-- `Participant` from `src/types.ts`; `avatar : string | null`. -/
structure Participant where
  id : String
  name : String
  avatar : Option String
deriving DecidableEq

/-- `Message` from `src/types.ts`.  All fields marked `?` in the source are
`Option`s.  The `type` field is declared required in `src/types.ts`, but
`handleAddDateMessage` in `src/App.tsx` constructs a `Message` literal
without it, so at runtime the property can be absent (`undefined`); the
embedding therefore uses `Option MType`, with `none` standing for the
absent property (every consumer in the source reads it through
`=== 'audio'` / `=== 'image'` checks with a text default, which the
`Option` match mirrors). -/
structure Message where
  id : String
  senderId : String
  text : String
  timestamp : DateTime
  type : Option MType
  audioDuration : Option String
  imageUrl : Option String
  imageCaption : Option String
  replyToId : Option String
  replyToPreview : Option String
  replyToType : Option MType
deriving DecidableEq

/-- `ChatMode` from `src/components/ChatSettings.tsx`
(`'private' | 'group'`). -/
inductive ChatMode where
  | privateChat
  | groupChat
deriving DecidableEq

/-- `ChatSettings` from `src/types.ts`. -/
structure ChatSettings where
  mode : ChatMode
  title : String
  avatar : Option String
deriving DecidableEq

/-- `PhoneStatusBar` from `src/types.ts`. -/
structure PhoneStatusBar where
  batteryLevel : Nat
  customTime : Option String
deriving DecidableEq

/-- `WhatsAppState` from `src/types.ts` (the aggregate ConversationState). -/
structure WhatsAppState where
  participants : List Participant
  messages : List Message
  chatSettings : ChatSettings
  meId : Option String
  phoneStatus : PhoneStatusBar
deriving DecidableEq

/-- The initial state from `src/App.tsx` lines 52-65 (identical to the one
in `src/context/ChatContext.tsx`). -/
def initialState : WhatsAppState :=
  { participants := []
    messages := []
    chatSettings := { mode := ChatMode.groupChat, title := "Group Chat", avatar := none }
    meId := none
    phoneStatus := { batteryLevel := 100, customTime := none } }

/-- `removeParticipant` from `src/context/ChatContext.tsx` lines 48-54:
filters the participant out and nulls `meId` in the same update when it
pointed at the removed id.  (`handleRemoveParticipant` in `src/App.tsx`
produces the same net state via two sequential updates.) -/
def removeParticipant (s : WhatsAppState) (id : String) : WhatsAppState :=
  { s with
    participants := s.participants.filter (fun p => p.id != id)
    meId := if s.meId = some id then none else s.meId }

/-- `setAsMe` from `src/context/ChatContext.tsx` lines 65-74: sets `meId`
and switches the chat mode to private exactly when there are two
participants.  (`handleSetAsMe` in `src/App.tsx` reaches the same state
through `handleChatModeChange`.) -/
def setAsMe (s : WhatsAppState) (id : String) : WhatsAppState :=
  { s with
    meId := some id
    chatSettings :=
      { s.chatSettings with
        mode := if s.participants.length = 2 then ChatMode.privateChat
                else s.chatSettings.mode } }

/-- The `Message` literal built by `handleAddDateMessage` in `src/App.tsx`:
only `id`, `senderId`, `text` and `timestamp` are supplied; the `type`
property (and every reply field) is absent at runtime. -/
def dateMarkerOf (label freshId : String) (now : DateTime) : Message :=
  { id := freshId
    senderId := "system_date"
    text := label
    timestamp := now
    type := none
    audioDuration := none
    imageUrl := none
    imageCaption := none
    replyToId := none
    replyToPreview := none
    replyToType := none }

/-- Emptiness after trimming: `s.trim() === ''` holds exactly when every
character of `s` is whitespace. -/
def isBlank (s : String) : Bool :=
  s.data.all Char.isWhitespace

/-- `handleAddDateMessage` from `src/App.tsx` lines 151-168 (the
`insertDateMarker` command).  The UI state `customDateText` is the
`label` argument; `uuidv4()` and `new Date()` are the `freshId` and
`now` arguments.  A whitespace-only label (`!label.trim()`) is a no-op. -/
def handleAddDateMessage (s : WhatsAppState) (label freshId : String)
    (now : DateTime) : WhatsAppState :=
  if isBlank label then s
  else { s with messages := s.messages ++ [dateMarkerOf label freshId now] }

/-- `isSystemDateMessage` from `src/components/ChatPreview.tsx`. -/
def isSystemDateMessage (m : Message) : Bool :=
  m.senderId == "system_date"

/-- The body of the `processedMessages` reduce from
`src/components/ChatPreview.tsx` lines 127-135, after the first element:
`prev` is the predecessor in the ORIGINAL array (`array[index - 1]`),
whether or not it was kept. -/
def collapseGo (prev : Message) : List Message → List Message
  | [] => []
  | m :: rest =>
      if isSystemDateMessage m && isSystemDateMessage prev then collapseGo m rest
      else m :: collapseGo m rest

/-- `processedMessages` from `src/components/ChatPreview.tsx` lines
127-135: drops every system-date message whose immediate predecessor in
the input list is also a system-date message. -/
def processedMessages : List Message → List Message
  | [] => []
  | m :: rest => m :: collapseGo m rest

/-- The invariant of §3 of the spec: `meId`, when non-null, references an
existing participant. -/
def meIdValid (s : WhatsAppState) : Prop :=
  ∀ mid, s.meId = some mid → ∃ p ∈ s.participants, p.id = mid

/-- C1: `removeParticipant id` removes every participant with that id, the
resulting `meId` is never `some id` (nulled when it was, untouched
otherwise), and the `meId`-references-a-participant invariant is
preserved. -/
theorem c1_remove_participant_correct (s : WhatsAppState) (id : String) :
    (∀ p ∈ (removeParticipant s id).participants, p.id ≠ id)
    ∧ (removeParticipant s id).meId ≠ some id
    ∧ (s.meId = some id → (removeParticipant s id).meId = none)
    ∧ (s.meId ≠ some id → (removeParticipant s id).meId = s.meId)
    ∧ (meIdValid s → meIdValid (removeParticipant s id)) := by
  refine ⟨?_, ?_, ?_, ?_, ?_⟩
  · intro p hp
    simp only [removeParticipant, List.mem_filter] at hp
    simpa [bne_iff_ne] using hp.2
  · by_cases h : s.meId = some id
    · simp [removeParticipant, h]
    · simp [removeParticipant, h]
  · intro h
    simp [removeParticipant, h]
  · intro h
    simp [removeParticipant, h]
  · intro hv mid hmid
    by_cases h : s.meId = some id
    · simp [removeParticipant, h] at hmid
    · simp only [removeParticipant, if_neg h] at hmid
      obtain ⟨p, hp, hpid⟩ := hv mid hmid
      have hne : mid ≠ id := by
        intro he
        exact h (he ▸ hmid)
      refine ⟨p, ?_, hpid⟩
      simp only [removeParticipant, List.mem_filter]
      exact ⟨hp, by simpa [bne_iff_ne, hpid] using hne⟩

/-- Witness for C1 at a concrete state. -/
theorem c1_remove_participant_correct_witness :
    (removeParticipant
      { initialState with
        participants := [⟨"a", "Alice", none⟩, ⟨"b", "Bob", none⟩]
        meId := some "a" } "a").meId = none :=
  (c1_remove_participant_correct
    { initialState with
      participants := [⟨"a", "Alice", none⟩, ⟨"b", "Bob", none⟩]
      meId := some "a" } "a").2.2.1 rfl

/-- `collapseGo` only looks at its `prev` argument through
`isSystemDateMessage`. -/
theorem collapseGo_congr (p q : Message)
    (h : isSystemDateMessage p = isSystemDateMessage q) :
    ∀ l, collapseGo p l = collapseGo q l := by
  intro l
  cases l with
  | nil => rfl
  | cons m rest => simp [collapseGo, h]

/-- Running the collapse a second time from the same predecessor changes
nothing. -/
theorem collapseGo_idem (l : List Message) :
    ∀ p, collapseGo p (collapseGo p l) = collapseGo p l := by
  induction l with
  | nil => intro p; rfl
  | cons m rest ih =>
    intro p
    by_cases hm : (isSystemDateMessage m && isSystemDateMessage p) = true
    · rw [Bool.and_eq_true] at hm
      have h1 : collapseGo p (m :: rest) = collapseGo m rest := by
        simp [collapseGo, hm.1, hm.2]
      rw [h1, collapseGo_congr p m (hm.2.trans hm.1.symm), ih m]
    · have hstep : ∀ tail, collapseGo p (m :: tail) = m :: collapseGo m tail := by
        intro tail
        simp only [collapseGo, if_neg hm]
      rw [hstep rest, hstep (collapseGo m rest), ih m]

/-- C2: collapsing consecutive system-date markers is idempotent. -/
theorem c2_collapse_idempotent (ms : List Message) :
    processedMessages (processedMessages ms) = processedMessages ms := by
  cases ms with
  | nil => rfl
  | cons m rest =>
    show processedMessages (m :: collapseGo m rest) = m :: collapseGo m rest
    show m :: collapseGo m (collapseGo m rest) = m :: collapseGo m rest
    rw [collapseGo_idem rest m]

/-- C6: `setAsMe id` always sets `meId := id`; with exactly two
participants (and mode not already private) the mode switches to
private, and with any other participant count the mode is unchanged. -/
theorem c6_set_as_me (s : WhatsAppState) (id : String) :
    (s.participants.length = 2 → s.chatSettings.mode ≠ ChatMode.privateChat →
      (setAsMe s id).meId = some id
      ∧ (setAsMe s id).chatSettings.mode = ChatMode.privateChat)
    ∧ (s.participants.length ≠ 2 →
      (setAsMe s id).meId = some id
      ∧ (setAsMe s id).chatSettings.mode = s.chatSettings.mode) := by
  constructor
  · intro h2 _
    exact ⟨rfl, by simp [setAsMe, h2]⟩
  · intro h2
    exact ⟨rfl, by simp [setAsMe, h2]⟩

/-- Witness for C6: two participants, group mode, `setAsMe "a"`. -/
theorem c6_set_as_me_witness :
    (setAsMe
      { initialState with
        participants := [⟨"a", "Alice", none⟩, ⟨"b", "Bob", none⟩] } "a").meId = some "a"
    ∧ (setAsMe
      { initialState with
        participants := [⟨"a", "Alice", none⟩, ⟨"b", "Bob", none⟩] } "a").chatSettings.mode
      = ChatMode.privateChat :=
  (c6_set_as_me
    { initialState with
      participants := [⟨"a", "Alice", none⟩, ⟨"b", "Bob", none⟩] } "a").1 rfl (by decide)

/-- C7 (code bug): a whitespace-only label is a no-op, and a non-blank
label appends exactly the marker built by `handleAddDateMessage` — whose
`senderId` is `"system_date"`, `text` is the label, and reply fields are
absent, but whose `type` property is ALSO absent (`none`), not
`some MType.text`: the source literal omits the `type` field that
`src/types.ts` declares required. -/
theorem c7_insert_date_marker_missing_type :
    handleAddDateMessage initialState "   " "id0" ⟨2024, 4, 1, 12, 30, 0, 0⟩
      = initialState
    ∧ (handleAddDateMessage initialState "Today" "id1" ⟨2024, 4, 1, 12, 30, 0, 0⟩).messages
      = initialState.messages ++ [dateMarkerOf "Today" "id1" ⟨2024, 4, 1, 12, 30, 0, 0⟩]
    ∧ (dateMarkerOf "Today" "id1" ⟨2024, 4, 1, 12, 30, 0, 0⟩).senderId = "system_date"
    ∧ (dateMarkerOf "Today" "id1" ⟨2024, 4, 1, 12, 30, 0, 0⟩).text = "Today"
    ∧ (dateMarkerOf "Today" "id1" ⟨2024, 4, 1, 12, 30, 0, 0⟩).replyToId = none
    ∧ (dateMarkerOf "Today" "id1" ⟨2024, 4, 1, 12, 30, 0, 0⟩).replyToPreview = none
    ∧ (dateMarkerOf "Today" "id1" ⟨2024, 4, 1, 12, 30, 0, 0⟩).replyToType = none
    ∧ (dateMarkerOf "Today" "id1" ⟨2024, 4, 1, 12, 30, 0, 0⟩).type = none
    ∧ (dateMarkerOf "Today" "id1" ⟨2024, 4, 1, 12, 30, 0, 0⟩).type ≠ some MType.text := by
  refine ⟨?_, ?_, rfl, rfl, rfl, rfl, rfl, rfl, by simp [dateMarkerOf]⟩
  · rfl
  · simp [handleAddDateMessage, isBlank, initialState]

/-- Calendar-day key of a message: the `toDateString()` of its timestamp
has day granularity, so two timestamps share the key exactly when they
share (year, month, day). -/
def dateKey (m : Message) : Nat × Nat × Nat :=
  (m.timestamp.year, m.timestamp.month, m.timestamp.day)

/-- One step of the `messagesByDate` reduce from
`src/components/ChatPreview.tsx` lines 140-152: a JavaScript object with
non-integer string keys keeps keys in insertion order and `Object.entries`
lists them in that order, so the accumulating record is modelled as an
association list where a new key is appended at the end and an existing
key has the message appended to its bucket. -/
def insertGrouped (gs : List ((Nat × Nat × Nat) × List Message))
    (k : Nat × Nat × Nat) (m : Message) :
    List ((Nat × Nat × Nat) × List Message) :=
  if gs.any (fun g => g.1 == k) then
    gs.map (fun g => if g.1 == k then (g.1, g.2 ++ [m]) else g)
  else gs ++ [(k, [m])]

/-- The `messagesByDate` reduce over the message list: system-date
messages are skipped (`if (isSystemDateMessage(message)) return groups`),
every other message is bucketed under its calendar-day key. -/
def groupAux : List ((Nat × Nat × Nat) × List Message) → List Message →
    List ((Nat × Nat × Nat) × List Message)
  | gs, [] => gs
  | gs, m :: rest =>
      groupAux (if isSystemDateMessage m then gs else insertGrouped gs (dateKey m) m) rest

/-- The date-bucketed branch of `messagesByDate` (as a key-ordered
association list, i.e. the `Object.entries` view). -/
def groupByDate (ms : List Message) : List ((Nat × Nat × Nat) × List Message) :=
  groupAux [] ms

/-- Keys in first-encountered order (specification-side description of the
bucket order). -/
def firstSeenAux : List (Nat × Nat × Nat) → List (Nat × Nat × Nat) →
    List (Nat × Nat × Nat)
  | acc, [] => acc
  | acc, k :: rest =>
      firstSeenAux (if acc.any (fun j => j == k) then acc else acc ++ [k]) rest

/-- Deduplication keeping the first occurrence of each key, in order. -/
def firstSeen (ks : List (Nat × Nat × Nat)) : List (Nat × Nat × Nat) :=
  firstSeenAux [] ks

/-- Strict chronological order on calendar-day keys. -/
def dayLt (a b : Nat × Nat × Nat) : Prop :=
  a.1 < b.1 ∨ (a.1 = b.1 ∧ (a.2.1 < b.2.1 ∨ (a.2.1 = b.2.1 ∧ a.2.2 < b.2.2)))

instance : DecidablePred fun ab : (Nat × Nat × Nat) × (Nat × Nat × Nat) => dayLt ab.1 ab.2 := by
  intro ab
  unfold dayLt
  infer_instance

instance (a b : Nat × Nat × Nat) : Decidable (dayLt a b) := by
  unfold dayLt
  infer_instance

/-- The group key handed to the render loop: either an automatic date
header or the single `'all'` group. -/
inductive GroupKey where
  | date (k : Nat × Nat × Nat)
  | all
deriving DecidableEq

/-- `shouldGroupByDate` from `src/components/ChatPreview.tsx` line 138. -/
def shouldGroupByDate (showDateDividers : Bool) (pm : List Message) : Bool :=
  showDateDividers && !(pm.any isSystemDateMessage)

/-- `messagesByDate` from `src/components/ChatPreview.tsx` lines 140-152,
as the entries sequence consumed by the render loop. -/
def messagesByDate (showDateDividers : Bool) (msgs : List Message) :
    List (GroupKey × List Message) :=
  let pm := processedMessages msgs
  if shouldGroupByDate showDateDividers pm then
    (groupByDate pm).map (fun g => (GroupKey.date g.1, g.2))
  else [(GroupKey.all, pm)]

/-- The collapse is the identity on lists without system-date messages. -/
theorem collapseGo_no_sys :
    ∀ (l : List Message) (p : Message),
      (∀ x ∈ l, isSystemDateMessage x = false) → collapseGo p l = l := by
  intro l
  induction l with
  | nil => intro p _; rfl
  | cons m rest ih =>
    intro p h
    have hm : isSystemDateMessage m = false := h m (List.mem_cons_self _ _)
    simp [collapseGo, hm, ih m (fun x hx => h x (List.mem_cons_of_mem _ hx))]

/-- `processedMessages` is the identity on lists without system-date
messages. -/
theorem processed_no_sys (ms : List Message)
    (h : ∀ x ∈ ms, isSystemDateMessage x = false) :
    processedMessages ms = ms := by
  cases ms with
  | nil => rfl
  | cons m rest =>
    show m :: collapseGo m rest = m :: rest
    rw [collapseGo_no_sys rest m (fun x hx => h x (List.mem_cons_of_mem _ hx))]

/-- Key membership test commutes with projecting keys out. -/
theorem anyKeys (gs : List ((Nat × Nat × Nat) × List Message)) (k : Nat × Nat × Nat) :
    ((gs.map Prod.fst).any fun j => j == k) = gs.any fun g => g.1 == k := by
  induction gs with
  | nil => rfl
  | cons g rest ih => simp [List.any_cons, ih]

/-- `insertGrouped` keeps the key sequence, appending the new key at the
end only when it was absent. -/
theorem keys_insertGrouped (gs : List ((Nat × Nat × Nat) × List Message))
    (k : Nat × Nat × Nat) (m : Message) :
    (insertGrouped gs k m).map Prod.fst =
      if (gs.map Prod.fst).any (fun j => j == k) then gs.map Prod.fst
      else gs.map Prod.fst ++ [k] := by
  rw [anyKeys]
  unfold insertGrouped
  by_cases h : (gs.any fun g => g.1 == k) = true
  · rw [if_pos h, if_pos h, List.map_map]
    apply List.map_congr_left
    intro a _
    by_cases hk : (a.1 == k) = true
    · simp [Function.comp, hk]
    · simp [Function.comp, hk]
  · rw [if_neg h, if_neg h]
    simp

/-- Invariant carried through the grouping fold: each bucket is the filter
of the consumed prefix at its key, and absent keys have empty filter. -/
def bucketsPartition (gs : List ((Nat × Nat × Nat) × List Message))
    (pref : List Message) : Prop :=
  (∀ kb ∈ gs, kb.2 = pref.filter (fun m => dateKey m == kb.1))
  ∧ ∀ k : Nat × Nat × Nat, ((gs.map Prod.fst).any fun j => j == k) = false →
      pref.filter (fun m => dateKey m == k) = []

/-- One grouping step preserves the partition invariant. -/
theorem insertGrouped_partition (gs : List ((Nat × Nat × Nat) × List Message))
    (pref : List Message) (m : Message)
    (hinv : bucketsPartition gs pref) :
    bucketsPartition (insertGrouped gs (dateKey m) m) (pref ++ [m]) := by
  obtain ⟨h1, h2⟩ := hinv
  by_cases hmem : (gs.any fun g => g.1 == dateKey m) = true
  · constructor
    · intro kb hkb
      rw [insertGrouped, if_pos hmem] at hkb
      obtain ⟨g, hg, hfg⟩ := List.mem_map.mp hkb
      rw [List.filter_append]
      by_cases hk : (g.1 == dateKey m) = true
      · have hk' : g.1 = dateKey m := by simpa using hk
        rw [if_pos hk] at hfg
        subst hfg
        have hsingle : [m].filter (fun x => dateKey x == g.1) = [m] := by
          simp [hk']
        rw [hsingle, ← h1 g hg]
      · rw [if_neg hk] at hfg
        subst hfg
        have hsingle : [m].filter (fun x => dateKey x == g.1) = [] := by
          simp only [List.filter, List.filter_nil]
          have : (dateKey m == g.1) = false := by
            cases hb : dateKey m == g.1
            · rfl
            · exact absurd (by simpa using (beq_iff_eq.mp hb).symm) (by simpa using hk)
          simp [this]
        rw [hsingle, List.append_nil, ← h1 g hg]
    · intro k' hk'
      have hkeys : (insertGrouped gs (dateKey m) m).map Prod.fst = gs.map Prod.fst := by
        rw [keys_insertGrouped, if_pos (by rw [anyKeys]; exact hmem)]
      rw [hkeys] at hk'
      rw [List.filter_append, h2 k' hk', List.nil_append]
      have hne : (dateKey m == k') = false := by
        cases hb : dateKey m == k'
        · rfl
        · exfalso
          have heq : dateKey m = k' := by simpa using hb
          rw [← heq, anyKeys, hmem] at hk'
          exact Bool.true_eq_false ▸ (by simp at hk')
      simp [hne]
  · have hmem' : (gs.any fun g => g.1 == dateKey m) = false := by
      cases hb : gs.any fun g => g.1 == dateKey m
      · rfl
      · exact absurd hb hmem
    rw [insertGrouped, if_neg (by simp [hmem'])]
    constructor
    · intro kb hkb
      rcases List.mem_append.mp hkb with hin | hone
      · rw [List.filter_append, ← h1 kb hin]
        have hne : (dateKey m == kb.1) = false := by
          cases hb : dateKey m == kb.1
          · rfl
          · exfalso
            have heq : dateKey m = kb.1 := by simpa using hb
            have : (gs.any fun g => g.1 == dateKey m) = true :=
              List.any_eq_true.mpr ⟨kb, hin, by simp [heq]⟩
            rw [this] at hmem'
            exact absurd hmem' (by simp)
        simp [hne]
      · have hkb' : kb = (dateKey m, [m]) := by simpa using hone
        subst hkb'
        rw [List.filter_append, h2 (dateKey m) (by rw [anyKeys]; exact hmem'),
          List.nil_append]
        simp
    · intro k'' hk''
      rw [List.map_append] at hk''
      simp only [List.any_append, Bool.or_eq_false_iff] at hk''
      obtain ⟨ha, hb⟩ := hk''
      rw [List.filter_append, h2 k'' ha, List.nil_append]
      have : (dateKey m == k'') = false := by simpa using hb
      simp [this]

/-- The grouping fold preserves the partition invariant along any suffix
of non-marker messages. -/
theorem groupAux_partition :
    ∀ (ms : List Message) (gs : List ((Nat × Nat × Nat) × List Message))
      (pref : List Message),
      (∀ x ∈ ms, isSystemDateMessage x = false) →
      bucketsPartition gs pref →
      bucketsPartition (groupAux gs ms) (pref ++ ms) := by
  intro ms
  induction ms with
  | nil => intro gs pref _ h; simpa using h
  | cons m rest ih =>
    intro gs pref hns hinv
    have hm : isSystemDateMessage m = false := hns m (List.mem_cons_self _ _)
    have hstep : groupAux gs (m :: rest)
        = groupAux (insertGrouped gs (dateKey m) m) rest := by
      simp [groupAux, hm]
    rw [hstep]
    have h := ih (insertGrouped gs (dateKey m) m) (pref ++ [m])
      (fun x hx => hns x (List.mem_cons_of_mem _ hx))
      (insertGrouped_partition gs pref m hinv)
    simpa [List.append_assoc] using h

/-- The grouped keys are the first-encountered deduplication of the
message date keys. -/
theorem groupAux_keys :
    ∀ (ms : List Message) (gs : List ((Nat × Nat × Nat) × List Message)),
      (∀ x ∈ ms, isSystemDateMessage x = false) →
      (groupAux gs ms).map Prod.fst
        = firstSeenAux (gs.map Prod.fst) (ms.map dateKey) := by
  intro ms
  induction ms with
  | nil => intro gs _; rfl
  | cons m rest ih =>
    intro gs hns
    have hm : isSystemDateMessage m = false := hns m (List.mem_cons_self _ _)
    have hstep : groupAux gs (m :: rest)
        = groupAux (insertGrouped gs (dateKey m) m) rest := by
      simp [groupAux, hm]
    rw [hstep, ih _ (fun x hx => hns x (List.mem_cons_of_mem _ hx))]
    rw [List.map_cons]
    show firstSeenAux ((insertGrouped gs (dateKey m) m).map Prod.fst) _
        = firstSeenAux _ _
    rw [keys_insertGrouped]
    rfl

/-- The grouping fold distributes over list append. -/
theorem groupAux_append :
    ∀ (xs ys : List Message) (gs : List ((Nat × Nat × Nat) × List Message)),
      groupAux gs (xs ++ ys) = groupAux (groupAux gs xs) ys := by
  intro xs
  induction xs with
  | nil => intro ys gs; rfl
  | cons x rest ih =>
    intro ys gs
    show groupAux _ (rest ++ ys) = _
    rw [ih]
    rfl

/-- `dayLt` is irreflexive. -/
theorem dayLt_irrefl (a : Nat × Nat × Nat) : ¬ dayLt a a := by
  simp [dayLt]

/-- C3: with date dividers on and no system-date markers, `messagesByDate`
is the calendar-day bucketing; buckets are keyed by each message's
calendar day (each bucket is exactly the sublist of messages of that
day, in order), bucket order is first-encountered key order, and
appending a message whose day is strictly earlier than every existing
bucket's day appends a new bucket at the END, leaving the relative order
of the existing buckets unchanged. -/
theorem c3_date_bucket_order (msgs : List Message)
    (hns : ∀ m ∈ msgs, isSystemDateMessage m = false) :
    messagesByDate true msgs
        = (groupByDate msgs).map (fun g => (GroupKey.date g.1, g.2))
    ∧ (groupByDate msgs).map Prod.fst = firstSeen (msgs.map dateKey)
    ∧ (∀ kb ∈ groupByDate msgs, kb.2 = msgs.filter (fun m => dateKey m == kb.1))
    ∧ ∀ m', isSystemDateMessage m' = false →
        (∀ kb ∈ groupByDate msgs, dayLt (dateKey m') kb.1) →
        (groupByDate (msgs ++ [m'])).map Prod.fst
          = (groupByDate msgs).map Prod.fst ++ [dateKey m'] := by
  have hproc : processedMessages msgs = msgs := processed_no_sys msgs hns
  have hany : (msgs.any isSystemDateMessage) = false := by
    rw [List.any_eq_false]
    intro x hx
    simp [hns x hx]
  refine ⟨?_, ?_, ?_, ?_⟩
  · rw [messagesByDate]
    simp only [hproc, shouldGroupByDate, hany]
    rfl
  · exact groupAux_keys msgs [] hns
  · intro kb hkb
    have h := (groupAux_partition msgs [] [] hns ⟨by simp, by simp⟩).1
    rw [List.nil_append] at h
    exact h kb hkb
  · intro m' hm' hlt
    have hnomem : ((groupByDate msgs).any fun g => g.1 == dateKey m') = false := by
      cases hb : (groupByDate msgs).any fun g => g.1 == dateKey m'
      · rfl
      · exfalso
        obtain ⟨kb, hkb, hbeq⟩ := List.any_eq_true.mp hb
        have heq : kb.1 = dateKey m' := by simpa using hbeq
        exact dayLt_irrefl (dateKey m') (heq ▸ hlt kb hkb)
    have h1 : groupByDate (msgs ++ [m'])
        = insertGrouped (groupByDate msgs) (dateKey m') m' := by
      rw [groupByDate, groupAux_append msgs [m'] []]
      show groupAux (groupByDate msgs) [m'] = _
      simp [groupAux, hm']
    rw [h1, insertGrouped, if_neg (by simp [hnomem])]
    simp

/-- Concrete messages for the C3 witness: two days in reverse
chronological order, then an even earlier third day. -/
def mkMessage (id senderId text : String) (ts : DateTime) : Message :=
  ⟨id, senderId, text, ts, some MType.text, none, none, none, none, none, none⟩

/-- Witness for C3: keys come out in first-encountered order, and
appending an earlier-day message appends its bucket at the end. -/
theorem c3_date_bucket_order_witness :
    (groupByDate [mkMessage "1" "a" "hi" ⟨2024, 4, 2, 10, 0, 0, 0⟩,
        mkMessage "2" "a" "yo" ⟨2024, 4, 5, 10, 0, 0, 0⟩]).map Prod.fst
      = firstSeen ([mkMessage "1" "a" "hi" ⟨2024, 4, 2, 10, 0, 0, 0⟩,
        mkMessage "2" "a" "yo" ⟨2024, 4, 5, 10, 0, 0, 0⟩].map dateKey)
    ∧ (groupByDate ([mkMessage "1" "a" "hi" ⟨2024, 4, 2, 10, 0, 0, 0⟩,
        mkMessage "2" "a" "yo" ⟨2024, 4, 5, 10, 0, 0, 0⟩]
          ++ [mkMessage "3" "a" "old" ⟨2024, 4, 1, 10, 0, 0, 0⟩])).map Prod.fst
      = (groupByDate [mkMessage "1" "a" "hi" ⟨2024, 4, 2, 10, 0, 0, 0⟩,
        mkMessage "2" "a" "yo" ⟨2024, 4, 5, 10, 0, 0, 0⟩]).map Prod.fst
        ++ [dateKey (mkMessage "3" "a" "old" ⟨2024, 4, 1, 10, 0, 0, 0⟩)] :=
  ⟨(c3_date_bucket_order _ (by decide)).2.1,
   (c3_date_bucket_order _ (by decide)).2.2.2 _ (by decide) (by decide)⟩

/-- `shouldShowAvatar` from `src/components/ChatPreview.tsx` lines
175-185: show the avatar only for the first message of a run.  The
render loop only calls it at valid indices; out-of-range indices map to
`false`/`true` placeholders never reached by the theorems. -/
def shouldShowAvatar (msgs : List Message) (i : Nat) : Bool :=
  match msgs[i]? with
  | none => false
  | some m =>
      if isSystemDateMessage m then false
      else if i = 0 then true
      else
        match msgs[i-1]? with
        | none => true
        | some prev =>
            if isSystemDateMessage prev then true
            else m.senderId != prev.senderId

/-- `shouldShowTail` from `src/components/ChatPreview.tsx` lines 188-190:
literally `shouldShowAvatar`. -/
def shouldShowTail (msgs : List Message) (i : Nat) : Bool :=
  shouldShowAvatar msgs i

/-- `isSequentialMessage` from `src/components/ChatPreview.tsx` lines
193-203. -/
def isSequentialMessage (msgs : List Message) (i : Nat) : Bool :=
  match msgs[i]? with
  | none => false
  | some m =>
      if isSystemDateMessage m then false
      else if i = 0 then false
      else
        match msgs[i-1]? with
        | none => false
        | some prev =>
            if isSystemDateMessage prev then false
            else m.senderId == prev.senderId

/-- Closed form of `shouldShowAvatar` at a non-marker message with a
predecessor. -/
theorem shouldShowAvatar_eq (msgs : List Message) (i : Nat) (m prev : Message)
    (hget : msgs[i]? = some m) (hm : isSystemDateMessage m = false)
    (h0 : i ≠ 0) (hprev : msgs[i-1]? = some prev) :
    shouldShowAvatar msgs i
      = (isSystemDateMessage prev || (m.senderId != prev.senderId)) := by
  simp only [shouldShowAvatar, hget, hm, if_neg h0, hprev]
  cases isSystemDateMessage prev <;> simp

/-- Closed form of `isSequentialMessage` at a non-marker message with a
predecessor. -/
theorem isSequentialMessage_eq (msgs : List Message) (i : Nat) (m prev : Message)
    (hget : msgs[i]? = some m) (hm : isSystemDateMessage m = false)
    (h0 : i ≠ 0) (hprev : msgs[i-1]? = some prev) :
    isSequentialMessage msgs i
      = (!isSystemDateMessage prev && (m.senderId == prev.senderId)) := by
  simp only [isSequentialMessage, hget, hm, if_neg h0, hprev]
  cases isSystemDateMessage prev <;> simp

/-- C4: avatar and tail are shown exactly at run starts (first index, or
predecessor is a system-date marker, or predecessor has a different
sender); a message is sequential exactly when its predecessor is a
non-marker from the same sender (and then avatar/tail are not shown);
and in the concrete 3-then-1 sender scenario exactly messages 1 and 4
show avatar/tail. -/
theorem c4_sequential_runs :
    (∀ (msgs : List Message) (i : Nat) (m : Message),
      msgs[i]? = some m → isSystemDateMessage m = false →
      (shouldShowAvatar msgs i = true ↔
        (i = 0 ∨ ∃ prev, msgs[i-1]? = some prev ∧
          (isSystemDateMessage prev = true ∨ m.senderId ≠ prev.senderId)))
      ∧ shouldShowTail msgs i = shouldShowAvatar msgs i
      ∧ (isSequentialMessage msgs i = true ↔
        (i ≠ 0 ∧ ∃ prev, msgs[i-1]? = some prev ∧
          isSystemDateMessage prev = false ∧ m.senderId = prev.senderId))
      ∧ (isSequentialMessage msgs i = true → shouldShowAvatar msgs i = false))
    ∧ ∀ (m1 m2 m3 m4 : Message),
      isSystemDateMessage m1 = false → isSystemDateMessage m2 = false →
      isSystemDateMessage m3 = false → isSystemDateMessage m4 = false →
      m2.senderId = m1.senderId → m3.senderId = m2.senderId →
      m4.senderId ≠ m3.senderId →
      shouldShowAvatar [m1, m2, m3, m4] 0 = true
      ∧ shouldShowAvatar [m1, m2, m3, m4] 1 = false
      ∧ shouldShowAvatar [m1, m2, m3, m4] 2 = false
      ∧ shouldShowAvatar [m1, m2, m3, m4] 3 = true
      ∧ shouldShowTail [m1, m2, m3, m4] 0 = true
      ∧ shouldShowTail [m1, m2, m3, m4] 1 = false
      ∧ shouldShowTail [m1, m2, m3, m4] 2 = false
      ∧ shouldShowTail [m1, m2, m3, m4] 3 = true := by
  constructor
  · intro msgs i m hget hm
    by_cases h0 : i = 0
    · subst h0
      refine ⟨?_, rfl, ?_, ?_⟩
      · simp [shouldShowAvatar, hget, hm]
      · simp [isSequentialMessage, hget, hm]
      · intro hseq
        simp [isSequentialMessage, hget, hm] at hseq
    · have hi : i < msgs.length := by
        by_contra hcon
        push_neg at hcon
        rw [List.getElem?_eq_none hcon] at hget
        cases hget
      obtain ⟨prev, hprev⟩ : ∃ prev, msgs[i-1]? = some prev :=
        ⟨msgs.get ⟨i-1, by omega⟩, List.getElem?_eq_getElem (by omega)⟩
      refine ⟨?_, rfl, ?_, ?_⟩
      · rw [shouldShowAvatar_eq msgs i m prev hget hm h0 hprev]
        constructor
        · intro h
          right
          refine ⟨prev, hprev, ?_⟩
          cases hsys : isSystemDateMessage prev
          · rw [hsys] at h
            exact Or.inr (by simpa using h)
          · exact Or.inl rfl
        · rintro (h0' | ⟨prev', hp', hd⟩)
          · exact absurd h0' h0
          · have hpp : prev' = prev := Option.some.inj (hp'.symm.trans hprev)
            subst hpp
            rcases hd with hs | hne
            · simp [hs]
            · simp [hne]
      · rw [isSequentialMessage_eq msgs i m prev hget hm h0 hprev]
        constructor
        · intro h
          rw [Bool.and_eq_true] at h
          refine ⟨h0, prev, hprev, by simpa using h.1, by simpa using h.2⟩
        · rintro ⟨_, prev', hp', hps, hsid⟩
          have hpp : prev' = prev := Option.some.inj (hp'.symm.trans hprev)
          subst hpp
          simp [hps, hsid]
      · intro hseq
        rw [isSequentialMessage_eq msgs i m prev hget hm h0 hprev] at hseq
        rw [Bool.and_eq_true] at hseq
        rw [shouldShowAvatar_eq msgs i m prev hget hm h0 hprev]
        have h1 : isSystemDateMessage prev = false := by simpa using hseq.1
        have h2 : m.senderId = prev.senderId := by simpa using hseq.2
        simp [h1, h2]
  · intro m1 m2 m3 m4 h1 h2 h3 h4 s21 s32 s43
    have s43' : m4.senderId ≠ m1.senderId := by
      rw [s32, s21] at s43
      exact s43
    refine ⟨?_, ?_, ?_, ?_, ?_, ?_, ?_, ?_⟩ <;>
      simp [shouldShowAvatar, shouldShowTail, h1, h2, h3, h4, s21, s32, s43, s43']

/-- Witness for C4: three messages from sender `a`, one from `b`. -/
theorem c4_sequential_runs_witness :
    shouldShowAvatar [mkMessage "1" "a" "x" ⟨2024, 4, 1, 9, 0, 0, 0⟩,
        mkMessage "2" "a" "y" ⟨2024, 4, 1, 9, 1, 0, 0⟩,
        mkMessage "3" "a" "z" ⟨2024, 4, 1, 9, 2, 0, 0⟩,
        mkMessage "4" "b" "w" ⟨2024, 4, 1, 9, 3, 0, 0⟩] 0 = true
    ∧ shouldShowAvatar [mkMessage "1" "a" "x" ⟨2024, 4, 1, 9, 0, 0, 0⟩,
        mkMessage "2" "a" "y" ⟨2024, 4, 1, 9, 1, 0, 0⟩,
        mkMessage "3" "a" "z" ⟨2024, 4, 1, 9, 2, 0, 0⟩,
        mkMessage "4" "b" "w" ⟨2024, 4, 1, 9, 3, 0, 0⟩] 1 = false
    ∧ shouldShowAvatar [mkMessage "1" "a" "x" ⟨2024, 4, 1, 9, 0, 0, 0⟩,
        mkMessage "2" "a" "y" ⟨2024, 4, 1, 9, 1, 0, 0⟩,
        mkMessage "3" "a" "z" ⟨2024, 4, 1, 9, 2, 0, 0⟩,
        mkMessage "4" "b" "w" ⟨2024, 4, 1, 9, 3, 0, 0⟩] 2 = false
    ∧ shouldShowAvatar [mkMessage "1" "a" "x" ⟨2024, 4, 1, 9, 0, 0, 0⟩,
        mkMessage "2" "a" "y" ⟨2024, 4, 1, 9, 1, 0, 0⟩,
        mkMessage "3" "a" "z" ⟨2024, 4, 1, 9, 2, 0, 0⟩,
        mkMessage "4" "b" "w" ⟨2024, 4, 1, 9, 3, 0, 0⟩] 3 = true := by
  have h := c4_sequential_runs.2
    (mkMessage "1" "a" "x" ⟨2024, 4, 1, 9, 0, 0, 0⟩)
    (mkMessage "2" "a" "y" ⟨2024, 4, 1, 9, 1, 0, 0⟩)
    (mkMessage "3" "a" "z" ⟨2024, 4, 1, 9, 2, 0, 0⟩)
    (mkMessage "4" "b" "w" ⟨2024, 4, 1, 9, 3, 0, 0⟩)
    (by decide) (by decide) (by decide) (by decide) rfl rfl (by decide)
  exact ⟨h.1, h.2.1, h.2.2.1, h.2.2.2.1⟩

/-- `getParticipantById` from `src/components/ChatPreview.tsx` lines 37-39. -/
def getParticipantById (parts : List Participant) (id : String) :
    Option Participant :=
  parts.find? (fun p => p.id == id)

/-- `getRepliedMessage` from `src/components/ChatPreview.tsx` lines 42-44. -/
def getRepliedMessage (msgs : List Message) (replyToId : String) :
    Option Message :=
  msgs.find? (fun m => m.id == replyToId)

/-- The JavaScript string-or-default idiom `s || dflt`: the default is used
when `s` is absent or the empty string. -/
def orElseText (s : Option String) (dflt : String) : String :=
  match s with
  | some t => if t = "" then dflt else t
  | none => dflt

/-- `getMessagePreview` from `src/components/ChatPreview.tsx` lines 47-56:
audio yields a fixed label, image its caption or a fixed label, and the
default branch (text, or an absent type tag) truncates to 47 characters
plus an ellipsis when longer than 50. -/
def getMessagePreview (m : Message) : String :=
  match m.type with
  | some MType.audio => "Voice message"
  | some MType.image => orElseText m.imageCaption "Photo"
  | _ => if m.text.length > 50 then m.text.take 47 ++ "..." else m.text

/-- The sender line of the reply preview block,
`src/components/ChatPreview.tsx` lines 400-407:
`repliedSender?.name || 'Unknown'`. -/
def replySenderLabel (msgs : List Message) (parts : List Participant)
    (replyToId : String) : String :=
  match getRepliedMessage msgs replyToId with
  | some rm =>
      match getParticipantById parts rm.senderId with
      | some p => if p.name = "" then "Unknown" else p.name
      | none => "Unknown"
  | none => "Unknown"

/-- The body line of the reply preview block,
`src/components/ChatPreview.tsx` lines 408-412: the target's preview when
found, otherwise `replyToPreview || 'Message not available'`. -/
def replyPreviewText (msgs : List Message) (m : Message)
    (replyToId : String) : String :=
  match getRepliedMessage msgs replyToId with
  | some rm => getMessagePreview rm
  | none => orElseText m.replyToPreview "Message not available"

/-- `orElseText` never yields the empty string when the default is
non-empty. -/
theorem orElseText_ne_empty (s : Option String) (d : String) (hd : d ≠ "") :
    orElseText s d ≠ "" := by
  cases s with
  | none => exact hd
  | some t =>
    by_cases ht : t = ""
    · simp only [orElseText, if_pos ht]
      exact hd
    · simp only [orElseText, if_neg ht]
      exact ht

/-- C5: when the reply target id resolves to no message, the sender line
is "Unknown" and the body is the cached preview (fixed fallback text when
the cache is absent or empty), never the empty string; when the target is
found, the body is its type-derived preview (audio and image labels,
47-character truncation for long text). -/
theorem c5_reply_resolution :
    (∀ (msgs : List Message) (parts : List Participant) (m : Message)
      (rid : String),
      m.replyToId = some rid →
      (∀ m' ∈ msgs, m'.id ≠ rid) →
      replySenderLabel msgs parts rid = "Unknown"
      ∧ replyPreviewText msgs m rid
          = orElseText m.replyToPreview "Message not available"
      ∧ replyPreviewText msgs m rid ≠ "")
    ∧ (∀ (msgs : List Message) (m : Message) (rid : String) (rm : Message),
      getRepliedMessage msgs rid = some rm →
      replyPreviewText msgs m rid = getMessagePreview rm)
    ∧ (∀ rm : Message, rm.type = some MType.audio →
        getMessagePreview rm = "Voice message")
    ∧ (∀ rm : Message, rm.type = some MType.image →
        getMessagePreview rm = orElseText rm.imageCaption "Photo")
    ∧ (∀ rm : Message, rm.type = some MType.text →
        getMessagePreview rm =
          if rm.text.length > 50 then rm.text.take 47 ++ "..." else rm.text) := by
  refine ⟨?_, ?_, ?_, ?_, ?_⟩
  · intro msgs parts m rid _ hnone
    have hfind : getRepliedMessage msgs rid = none := by
      rw [getRepliedMessage, List.find?_eq_none]
      intro m' hm'
      simp [hnone m' hm']
    refine ⟨?_, ?_, ?_⟩
    · simp [replySenderLabel, hfind]
    · simp [replyPreviewText, hfind]
    · simp only [replyPreviewText, hfind]
      exact orElseText_ne_empty _ _ (by decide)
  · intro msgs m rid rm h
    simp [replyPreviewText, h]
  · intro rm h
    simp [getMessagePreview, h]
  · intro rm h
    simp [getMessagePreview, h]
  · intro rm h
    simp [getMessagePreview, h]

/-- Witness for C5: a reply into an empty message list falls back to the
cached preview with sender "Unknown". -/
theorem c5_reply_resolution_witness :
    replySenderLabel [] [] "x" = "Unknown"
    ∧ replyPreviewText []
        { mkMessage "9" "a" "re" ⟨2024, 4, 1, 9, 0, 0, 0⟩ with
          replyToId := some "x", replyToPreview := some "cached text" } "x"
        = "cached text" := by
  have h := c5_reply_resolution.1 [] []
    { mkMessage "9" "a" "re" ⟨2024, 4, 1, 9, 0, 0, 0⟩ with
      replyToId := some "x", replyToPreview := some "cached text" } "x"
    rfl (by simp)
  exact ⟨h.1, by simpa [orElseText] using h.2.1⟩

/-- Digit character for the numeric renderings (code point 48 + digit). -/
def digitChar (n : Nat) : Char :=
  Char.ofNat (48 + n % 10)

/-- Two-digit zero-padded rendering (values below 100). -/
def twoDigits (n : Nat) : List Char :=
  [digitChar (n / 10), digitChar (n % 10)]

/-- Model of `toLocaleTimeString([], { hour: '2-digit', minute: '2-digit' })`:
a time string derived from the hour and minute of the date value. -/
def localeTimeString (d : DateTime) : String :=
  String.mk (twoDigits d.hour) ++ ":" ++ String.mk (twoDigits d.minute)

/-- `formatTime` from `src/components/ChatPreview.tsx` lines 58-63: the
custom time overrides the message's own timestamp whenever it is non-null
and not whitespace-only. -/
def formatTime (ps : PhoneStatusBar) (d : DateTime) : String :=
  match ps.customTime with
  | some s => if s ≠ "" ∧ isBlank s = false then s else localeTimeString d
  | none => localeTimeString d

/-- `getCurrentTime` from `src/components/ChatPreview.tsx` lines 65-70:
the status-bar clock, same custom-time override over the current
wall-clock time. -/
def getCurrentTime (ps : PhoneStatusBar) (now : DateTime) : String :=
  match ps.customTime with
  | some s => if s ≠ "" ∧ isBlank s = false then s else localeTimeString now
  | none => localeTimeString now

/-- C10: when `customTime` is non-null and not whitespace-only, every
message bubble time and the status-bar clock equal `customTime`,
independent of the message timestamps and the wall clock; otherwise the
bubble time is derived from the message's own timestamp and the status
bar from the current time. -/
theorem c10_custom_time_display :
    (∀ (ps : PhoneStatusBar) (s : String) (d now : DateTime),
      ps.customTime = some s → isBlank s = false →
      formatTime ps d = s ∧ getCurrentTime ps now = s)
    ∧ (∀ (ps : PhoneStatusBar) (d now : DateTime),
      (ps.customTime = none ∨ ∃ s, ps.customTime = some s ∧ isBlank s = true) →
      formatTime ps d = localeTimeString d
      ∧ getCurrentTime ps now = localeTimeString now) := by
  constructor
  · intro ps s d now hct hb
    have hne : s ≠ "" := by
      intro he
      rw [he] at hb
      simp [isBlank] at hb
    constructor
    · simp [formatTime, hct, hne, hb]
    · simp [getCurrentTime, hct, hne, hb]
  · intro ps d now hcase
    rcases hcase with hnone | ⟨s, hct, hb⟩
    · exact ⟨by simp [formatTime, hnone], by simp [getCurrentTime, hnone]⟩
    · constructor
      · simp [formatTime, hct, hb]
      · simp [getCurrentTime, hct, hb]

/-- Witness for C10: `customTime = "9:41"` overrides a message timestamp. -/
theorem c10_custom_time_display_witness :
    formatTime ⟨100, some "9:41"⟩ ⟨2024, 4, 1, 17, 30, 0, 0⟩ = "9:41"
    ∧ getCurrentTime ⟨100, some "9:41"⟩ ⟨2024, 4, 1, 17, 31, 0, 0⟩ = "9:41" :=
  c10_custom_time_display.1 ⟨100, some "9:41"⟩ "9:41"
    ⟨2024, 4, 1, 17, 30, 0, 0⟩ ⟨2024, 4, 1, 17, 31, 0, 0⟩ rfl (by decide)

/-- What the fixed-width avatar column of a bubble shows
(`src/components/ChatPreview.tsx` lines 360-383): an image, the
initial-letter badge, an empty spacer (container rendered with no
content), or no column at all (own messages). -/
inductive AvatarSlot where
  | image (url : String)
  | badge (initial : String)
  | emptySlot
  | noSlot
deriving DecidableEq

/-- The observable identity-related parts of one rendered message bubble. -/
structure RenderedBubble where
  isMe : Bool
  nameLine : Option String
  avatarSlot : AvatarSlot
  showTail : Bool
  sequential : Bool
deriving DecidableEq

/-- `name.charAt(0).toUpperCase()` of the badge
(`src/components/ChatPreview.tsx` line 377). -/
def initialOf (name : String) : String :=
  (name.take 1).toUpper

/-- The per-message render of the bubble loop in
`src/components/ChatPreview.tsx` lines 334-383: system-date messages
become dividers (`none` here); otherwise the sender is looked up
(`getParticipantById`), `isMe` is `sender?.id === meId`, the name line
needs `showName && sender`, and the avatar column needs
`!isMe`, with content only when `!isSequential && sender`. -/
def renderMessage (parts : List Participant) (mode : ChatMode)
    (meId : Option String) (dateMessages : List Message) (i : Nat) :
    Option RenderedBubble :=
  match dateMessages[i]? with
  | none => none
  | some m =>
      if isSystemDateMessage m then none
      else
        let sender := getParticipantById parts m.senderId
        let isMe : Bool :=
          match sender with
          | some p =>
              match meId with
              | some mid => p.id == mid
              | none => false
          | none => false
        let seq := isSequentialMessage dateMessages i
        let nameLine : Option String :=
          if (mode == ChatMode.groupChat) && !isMe && shouldShowAvatar dateMessages i then
            sender.map Participant.name
          else none
        let slot : AvatarSlot :=
          if isMe then AvatarSlot.noSlot
          else if seq then AvatarSlot.emptySlot
          else
            match sender with
            | none => AvatarSlot.emptySlot
            | some p =>
                match p.avatar with
                | some url =>
                    if url = "" then AvatarSlot.badge (initialOf p.name)
                    else AvatarSlot.image url
                | none => AvatarSlot.badge (initialOf p.name)
        some { isMe := isMe, nameLine := nameLine, avatarSlot := slot,
               showTail := shouldShowTail dateMessages i, sequential := seq }

/-- Whether a bubble shows any identity for its sender: a name line, an
avatar image, or the initial-letter placeholder badge. -/
def showsPlaceholderIdentity (b : RenderedBubble) : Bool :=
  b.nameLine.isSome ||
    (match b.avatarSlot with
     | AvatarSlot.badge _ => true
     | AvatarSlot.image _ => true
     | _ => false)

/-- A message whose sender id matches no participant. -/
def ghostMessage : Message :=
  mkMessage "g1" "ghost" "hello" ⟨2024, 4, 1, 12, 0, 0, 0⟩

/-- C9 counterexample: with no participant matching the sender id, the
bubble IS produced (not me), but NO placeholder name or avatar badge is
rendered — the name line is omitted and the avatar column is an empty
spacer, contradicting the claim that a neutral placeholder name/avatar
is shown in their place. -/
theorem c9_unknown_sender_counterexample :
    (renderMessage [] ChatMode.groupChat none [ghostMessage] 0).map
        showsPlaceholderIdentity = some false
    ∧ renderMessage [] ChatMode.groupChat none [ghostMessage] 0
        = some { isMe := false, nameLine := none,
                 avatarSlot := AvatarSlot.emptySlot,
                 showTail := true, sequential := false } :=
  ⟨rfl, rfl⟩

/-- C9 amended: for a non-marker message whose sender id matches no
participant, rendering still produces a bubble, treated as not sent by
"me", but with the name line omitted and the avatar column rendered as
an empty spacer (no placeholder badge), while the run/tail flags are
computed as usual. -/
theorem c9_unknown_sender_amended (parts : List Participant) (mode : ChatMode)
    (meId : Option String) (msgs : List Message) (i : Nat) (m : Message)
    (hget : msgs[i]? = some m) (hns : isSystemDateMessage m = false)
    (hunknown : ∀ p ∈ parts, p.id ≠ m.senderId) :
    renderMessage parts mode meId msgs i
      = some { isMe := false, nameLine := none,
               avatarSlot := AvatarSlot.emptySlot,
               showTail := shouldShowTail msgs i,
               sequential := isSequentialMessage msgs i } := by
  have hfind : getParticipantById parts m.senderId = none := by
    rw [getParticipantById, List.find?_eq_none]
    intro p hp
    simp [hunknown p hp]
  simp [renderMessage, hget, hns, hfind, ite_self]

/-- Witness for the C9 amended theorem at a concrete unknown-sender
message with a non-empty participant list. -/
theorem c9_unknown_sender_amended_witness :
    renderMessage [⟨"a", "Alice", none⟩] ChatMode.groupChat (some "a")
        [ghostMessage] 0
      = some { isMe := false, nameLine := none,
               avatarSlot := AvatarSlot.emptySlot,
               showTail := true, sequential := false } := by
  have h := c9_unknown_sender_amended [⟨"a", "Alice", none⟩]
    ChatMode.groupChat (some "a") [ghostMessage] 0 ghostMessage rfl
    (by decide) (by decide)
  exact h

/-- Three-digit zero-padded rendering (values below 1000). -/
def threeDigits (n : Nat) : List Char :=
  [digitChar (n / 100), digitChar (n / 10 % 10), digitChar (n % 10)]

/-- Four-digit zero-padded rendering (values below 10000). -/
def fourDigits (n : Nat) : List Char :=
  [digitChar (n / 1000), digitChar (n / 100 % 10), digitChar (n / 10 % 10),
   digitChar (n % 10)]

/-- The ISO-8601 character sequence YYYY-MM-DDTHH:MM:SS.mmmZ of a date
value. -/
def isoChars (d : DateTime) : List Char :=
  fourDigits d.year ++ '-' :: twoDigits d.month ++ '-' :: twoDigits d.day
    ++ 'T' :: twoDigits d.hour ++ ':' :: twoDigits d.minute
    ++ ':' :: twoDigits d.second ++ '.' :: threeDigits d.millis ++ ['Z']

/-- Modelled from the spec: the repository under `src/` persists only
UI preferences, not the ConversationState; §4.5 of the spec describes the
missing Persistence Codec, which transports each `timestamp` as an
ISO-8601 string (`Date.prototype.toISOString`).  This is that string. -/
def isoEncode (d : DateTime) : String :=
  String.mk (isoChars d)

/-- Inverse of `digitChar` on digit characters. -/
def parseDigit (c : Char) : Option Nat :=
  if 48 ≤ c.toNat ∧ c.toNat ≤ 57 then some (c.toNat - 48) else none

/-- Two decimal digits. -/
def parse2 (a b : Char) : Option Nat :=
  match parseDigit a, parseDigit b with
  | some x, some y => some (10 * x + y)
  | _, _ => none

/-- Three decimal digits. -/
def parse3 (a b c : Char) : Option Nat :=
  match parseDigit a, parseDigit b, parseDigit c with
  | some x, some y, some z => some (100 * x + 10 * y + z)
  | _, _, _ => none

/-- Four decimal digits. -/
def parse4 (a b c d : Char) : Option Nat :=
  match parseDigit a, parseDigit b, parseDigit c, parseDigit d with
  | some x, some y, some z, some w => some (1000 * x + 100 * y + 10 * z + w)
  | _, _, _, _ => none

/-- Parser for the ISO-8601 layout YYYY-MM-DDTHH:MM:SS.mmmZ; anything
else is malformed. -/
def isoDecodeChars : List Char → Option DateTime
  | [y1, y2, y3, y4, s1, mo1, mo2, s2, dd1, dd2, s3, h1, h2, s4, mi1, mi2,
     s5, se1, se2, s6, ms1, ms2, ms3, s7] =>
      if s1 = '-' ∧ s2 = '-' ∧ s3 = 'T' ∧ s4 = ':' ∧ s5 = ':' ∧ s6 = '.'
          ∧ s7 = 'Z' then
        match parse4 y1 y2 y3 y4, parse2 mo1 mo2, parse2 dd1 dd2,
            parse2 h1 h2, parse2 mi1 mi2, parse2 se1 se2,
            parse3 ms1 ms2 ms3 with
        | some y, some mo, some dd, some h, some mi, some se, some ms =>
            some ⟨y, mo, dd, h, mi, se, ms⟩
        | _, _, _, _, _, _, _ => none
      else none
  | _ => none

/-- Modelled from the spec: reconstruction of a date value from its
ISO-8601 transport string (`new Date(isoString)` on load), part of the
Persistence Codec missing from `src/`. -/
def isoDecode (s : String) : Option DateTime :=
  isoDecodeChars s.data

/-- Field bounds under which the zero-padded rendering is faithful; every
timestamp produced by `new Date()` satisfies them. -/
def DateTime.wf (d : DateTime) : Prop :=
  d.year < 10000 ∧ d.month < 100 ∧ d.day < 100 ∧ d.hour < 100
    ∧ d.minute < 100 ∧ d.second < 100 ∧ d.millis < 1000

instance (d : DateTime) : Decidable (DateTime.wf d) := by
  unfold DateTime.wf
  infer_instance

/-- `parseDigit` inverts `digitChar` on digits. -/
theorem parseDigit_digitChar (k : Nat) (h : k < 10) :
    parseDigit (digitChar k) = some k := by
  interval_cases k <;> rfl

/-- `parse2` inverts `twoDigits`. -/
theorem parse2_twoDigits (n : Nat) (h : n < 100) :
    parse2 (digitChar (n / 10)) (digitChar (n % 10)) = some n := by
  have p1 := parseDigit_digitChar (n / 10) (by omega)
  have p2 := parseDigit_digitChar (n % 10) (by omega)
  simp only [parse2, p1, p2]
  congr 1
  omega

/-- `parse3` inverts `threeDigits`. -/
theorem parse3_threeDigits (n : Nat) (h : n < 1000) :
    parse3 (digitChar (n / 100)) (digitChar (n / 10 % 10)) (digitChar (n % 10))
      = some n := by
  have p1 := parseDigit_digitChar (n / 100) (by omega)
  have p2 := parseDigit_digitChar (n / 10 % 10) (by omega)
  have p3 := parseDigit_digitChar (n % 10) (by omega)
  simp only [parse3, p1, p2, p3]
  congr 1
  omega

/-- `parse4` inverts `fourDigits`. -/
theorem parse4_fourDigits (n : Nat) (h : n < 10000) :
    parse4 (digitChar (n / 1000)) (digitChar (n / 100 % 10))
        (digitChar (n / 10 % 10)) (digitChar (n % 10)) = some n := by
  have p1 := parseDigit_digitChar (n / 1000) (by omega)
  have p2 := parseDigit_digitChar (n / 100 % 10) (by omega)
  have p3 := parseDigit_digitChar (n / 10 % 10) (by omega)
  have p4 := parseDigit_digitChar (n % 10) (by omega)
  simp only [parse4, p1, p2, p3, p4]
  congr 1
  omega

/-- The ISO-8601 round trip on well-formed date values. -/
theorem isoDecode_isoEncode (d : DateTime) (h : d.wf) :
    isoDecode (isoEncode d) = some d := by
  obtain ⟨y, mo, dd, hh, mi, se, ms⟩ := d
  obtain ⟨h1, h2, h3, h4, h5, h6, h7⟩ := h
  show isoDecodeChars (isoChars ⟨y, mo, dd, hh, mi, se, ms⟩) = _
  simp only [isoChars, fourDigits, twoDigits, threeDigits, List.cons_append,
    List.nil_append]
  simp only [isoDecodeChars]
  rw [if_pos (by simp)]
  rw [parse4_fourDigits y h1, parse2_twoDigits mo h2, parse2_twoDigits dd h3,
    parse2_twoDigits hh h4, parse2_twoDigits mi h5, parse2_twoDigits se h6,
    parse3_threeDigits ms h7]

/-- Modelled from the spec: the UI-only preferences persisted in separate
slots (§6 of the spec): `previewOnRight`, `darkMode`, `showDateDividers`,
`chatBackground`. -/
structure UIPrefs where
  previewOnRight : Bool
  darkMode : Bool
  showDateDividers : Bool
  chatBackground : String
deriving DecidableEq

/-- Modelled from the spec: a persisted message — every `Message` field,
with the timestamp transported as an ISO-8601 string (§4.5). -/
structure StoredMessage where
  id : String
  senderId : String
  text : String
  timestamp : String
  type : Option MType
  audioDuration : Option String
  imageUrl : Option String
  imageCaption : Option String
  replyToId : Option String
  replyToPreview : Option String
  replyToType : Option MType
deriving DecidableEq

/-- Modelled from the spec: the persisted/imported document shape of §6 —
`participants`, `messages` (string timestamps), `chatSettings`, `meId`,
`phoneStatus` and the UI preferences. -/
structure StoredDoc where
  participants : List Participant
  messages : List StoredMessage
  chatSettings : ChatSettings
  meId : Option String
  phoneStatus : PhoneStatusBar
  prefs : UIPrefs
deriving DecidableEq

/-- Serialization of one message: copy every field, encode the timestamp. -/
def encodeMessage (m : Message) : StoredMessage :=
  { id := m.id, senderId := m.senderId, text := m.text,
    timestamp := isoEncode m.timestamp, type := m.type,
    audioDuration := m.audioDuration, imageUrl := m.imageUrl,
    imageCaption := m.imageCaption, replyToId := m.replyToId,
    replyToPreview := m.replyToPreview, replyToType := m.replyToType }

/-- Deserialization of one message; fails on a malformed timestamp. -/
def decodeMessage (sm : StoredMessage) : Option Message :=
  match isoDecode sm.timestamp with
  | some t =>
      some { id := sm.id, senderId := sm.senderId, text := sm.text,
             timestamp := t, type := sm.type,
             audioDuration := sm.audioDuration, imageUrl := sm.imageUrl,
             imageCaption := sm.imageCaption, replyToId := sm.replyToId,
             replyToPreview := sm.replyToPreview,
             replyToType := sm.replyToType }
  | none => none

/-- Deserialization of a message list; fails if any timestamp is
malformed. -/
def decodeMessages : List StoredMessage → Option (List Message)
  | [] => some []
  | sm :: rest =>
      match decodeMessage sm, decodeMessages rest with
      | some m, some ms => some (m :: ms)
      | _, _ => none

/-- Modelled from the spec: default values of the separate UI-preference
slots (`previewOnRight` defaults to `false`, `darkMode` to `true`,
`showDateDividers` to `true`, `chatBackground` to the empty string, per
`src/App.tsx`). -/
def defaultPrefs : UIPrefs :=
  { previewOnRight := false, darkMode := true, showDateDividers := true,
    chatBackground := "" }

/-- Modelled from the spec: `serialize(ConversationState, uiPrefs)` of the
Persistence Codec (§4.5), which is absent from `src/`.  Every field is
carried verbatim except message timestamps, which become ISO-8601
strings.  (The outer JSON text wrapping of this record is not modelled;
the field content and the timestamp string transport are.) -/
def serialize (s : WhatsAppState) (prefs : UIPrefs) : StoredDoc :=
  { participants := s.participants
    messages := s.messages.map encodeMessage
    chatSettings := s.chatSettings
    meId := s.meId
    phoneStatus := s.phoneStatus
    prefs := prefs }

/-- Modelled from the spec: `deserialize(text)` of the Persistence Codec
(§4.5).  Absent input (`none`) or a document with a malformed timestamp
yields the documented default ConversationState (the `initialState` of
`src/App.tsx`) instead of failing. -/
def deserialize (doc : Option StoredDoc) : WhatsAppState × UIPrefs :=
  match doc with
  | none => (initialState, defaultPrefs)
  | some d =>
      match decodeMessages d.messages with
      | some ms =>
          ({ participants := d.participants, messages := ms,
             chatSettings := d.chatSettings, meId := d.meId,
             phoneStatus := d.phoneStatus }, d.prefs)
      | none => (initialState, defaultPrefs)

/-- A reachable state only holds timestamps produced by `new Date()`,
whose fields satisfy the zero-padding bounds. -/
def WhatsAppState.wf (s : WhatsAppState) : Prop :=
  ∀ m ∈ s.messages, m.timestamp.wf

/-- Decoding inverts encoding on one well-formed message. -/
theorem decode_encode_message (m : Message) (h : m.timestamp.wf) :
    decodeMessage (encodeMessage m) = some m := by
  simp only [decodeMessage, encodeMessage, isoDecode_isoEncode m.timestamp h]

/-- Decoding inverts encoding on a list of well-formed messages. -/
theorem decodeMessages_map_encode (ms : List Message)
    (h : ∀ m ∈ ms, m.timestamp.wf) :
    decodeMessages (ms.map encodeMessage) = some ms := by
  induction ms with
  | nil => rfl
  | cons m rest ih =>
    simp only [List.map_cons, decodeMessages,
      decode_encode_message m (h m (List.mem_cons_self _ _)),
      ih (fun x hx => h x (List.mem_cons_of_mem _ hx))]

/-- A concrete malformed stored document: its only message carries a
timestamp that is not an ISO-8601 date. -/
def malformedDoc : StoredDoc :=
  { participants := []
    messages := [{ id := "b", senderId := "a", text := "x",
                   timestamp := "not-a-date", type := some MType.text,
                   audioDuration := none, imageUrl := none,
                   imageCaption := none, replyToId := none,
                   replyToPreview := none, replyToType := none }]
    chatSettings := { mode := ChatMode.groupChat, title := "t", avatar := none }
    meId := none
    phoneStatus := { batteryLevel := 50, customTime := none }
    prefs := defaultPrefs }

/-- C8: the persistence round trip restores the state and preferences
exactly (timestamps travelling as ISO-8601 strings), and absent or
malformed input yields the documented default ConversationState — empty
participants/messages, mode "group", title "Group Chat", avatar null,
meId null, batteryLevel 100, customTime null. -/
theorem c8_persistence_round_trip (s : WhatsAppState) (prefs : UIPrefs)
    (h : s.wf) :
    deserialize (some (serialize s prefs)) = (s, prefs)
    ∧ deserialize none = (initialState, defaultPrefs)
    ∧ initialState =
        { participants := [], messages := [],
          chatSettings := { mode := ChatMode.groupChat,
                            title := "Group Chat", avatar := none },
          meId := none,
          phoneStatus := { batteryLevel := 100, customTime := none } }
    ∧ deserialize (some malformedDoc) = (initialState, defaultPrefs) := by
  refine ⟨?_, rfl, rfl, rfl⟩
  simp only [deserialize, serialize, decodeMessages_map_encode s.messages h]

/-- Witness for C8: round trip of a one-message state. -/
theorem c8_persistence_round_trip_witness :
    deserialize (some (serialize
      { initialState with
        messages := [mkMessage "1" "a" "hi" ⟨2024, 4, 1, 9, 0, 0, 0⟩] }
      defaultPrefs))
      = ({ initialState with
          messages := [mkMessage "1" "a" "hi" ⟨2024, 4, 1, 9, 0, 0, 0⟩] },
         defaultPrefs) :=
  (c8_persistence_round_trip
    { initialState with
      messages := [mkMessage "1" "a" "hi" ⟨2024, 4, 1, 9, 0, 0, 0⟩] }
    defaultPrefs (by intro m hm; simp at hm; subst hm; decide)).1

end WhatsApp
